import Mathlib

/-!
# protoutil: bounded receive, stream health monitor, slice comparison

A shallow embedding of `protoutil/stream.go` and `protoutil/compare.go`.

Modelling conventions.

* Time is logical: a natural number of ticks (nanoseconds, the unit of
  `time.Duration`).  Every channel of a `select` has a tick at which it becomes
  ready; the `select` returns at the earliest such tick.  When several channels
  are ready on that tick Go picks one pseudo-randomly: the choice is the
  `pollorder` argument (the name of the permutation the Go runtime draws), so
  every theorem quantified over `pollorder` holds for every choice.
* `ctx.Done()` is the tick at which the context is cancelled (`none`: never).
* One `stream.RecvMsg(req)` call is the triple of how long it blocks
  (`none`: forever), what it leaves in the buffer, and the error it returns.
* A Go `error` is `Option GoError`; `none` is `nil`.
-/

namespace Protoutil

/-! ## gRPC status (google.golang.org/grpc/codes, .../status) -/

/-- The gRPC status codes of package `codes`. -/
inductive Code
  | OK | Canceled | Unknown | InvalidArgument | DeadlineExceeded | NotFound
  | AlreadyExists | PermissionDenied | ResourceExhausted | FailedPrecondition
  | Aborted | OutOfRange | Unimplemented | Internal | Unavailable | DataLoss
  | Unauthenticated
deriving DecidableEq, Repr

/-- A non-nil Go error value: a gRPC status error (code and message) or any
other error, identified by its text (`io.EOF`, an `fmt.Errorf` result). -/
inductive GoError
  | status (code : Code) (msg : String)
  | other (text : String)
deriving DecidableEq, Repr

/-- Go `status.Error(c, msg)`: nil for `codes.OK`, a status error otherwise. -/
def statusError (c : Code) (msg : String) : Option GoError :=
  if c = Code.OK then none else some (GoError.status c msg)

/-- Go `status.Code(err)`: `OK` for nil, the code of a status error, `Unknown`
for every other error.  Errors that wrap a status error are not modelled: a
`GoError` is a status error itself or carries none. -/
def statusCode : Option GoError → Code
  | none => Code.OK
  | some (GoError.status c _) => c
  | some (GoError.other _) => Code.Unknown

/-! ## BoundedReceive -/

/-- The constant `streamKeepAliveRecvTimeout = 10 * time.Second`, in
nanoseconds. -/
def streamKeepAliveRecvTimeout : Int := 10 * 1000000000

/-- A `context.Context` as this package observes it: the tick at which
`ctx.Done()` is closed, `none` when it never is. -/
structure Context where
  doneAt : Option Nat
deriving DecidableEq, Repr

/-- One call `stream.RecvMsg(req)`: it blocks for `completesAfter` ticks
(`none`: it never returns), leaves `filled` in the buffer `req` and returns
`err`. -/
structure RecvMsg (Req : Type) where
  completesAfter : Option Nat
  filled : Req
  err : Option GoError

/-- The three cases of the `select` in `BoundedReceive`, in source order. -/
inductive SelectCase
  | doneCh
  | ctxDone
  | timeAfter
deriving DecidableEq, Repr

/-- The tick at which each case of the `select` becomes ready, for a call
entered at tick `now`: `doneCh` is closed when `RecvMsg` returns, `ctx.Done()`
is ready from the cancellation on (at once when the context is already
cancelled), and `time.After(timeout)` fires `timeout` later (at once for a
non-positive duration). -/
def readyAt {Req : Type} (ctx : Context) (stream : RecvMsg Req) (timeout : Int)
    (now : Nat) : SelectCase → Option Nat
  | SelectCase.doneCh => stream.completesAfter.map (fun d => now + d)
  | SelectCase.ctxDone => ctx.doneAt.map (fun c => max now c)
  | SelectCase.timeAfter => some (now + timeout.toNat)

/-- The earlier of an optional tick and a tick. -/
def earliest (a : Option Nat) (t : Nat) : Nat :=
  match a with
  | some x => min x t
  | none => t

/-- The tick at which the `select` returns: the first tick at which some case
is ready.  The timer case always becomes ready, so the tick exists. -/
def returnsAt {Req : Type} (ctx : Context) (stream : RecvMsg Req) (timeout : Int)
    (now : Nat) : Nat :=
  earliest (readyAt ctx stream timeout now SelectCase.doneCh)
    (earliest (readyAt ctx stream timeout now SelectCase.ctxDone)
      (now + timeout.toNat))

/-- The case the `select` takes: among the cases ready at the return tick, the
first one in `pollorder`.  The three cases are appended in source order so that
the choice is defined for every `pollorder`. -/
def selected {Req : Type} (ctx : Context) (stream : RecvMsg Req) (timeout : Int)
    (now : Nat) (pollorder : List SelectCase) : SelectCase :=
  ((pollorder ++ [SelectCase.doneCh, SelectCase.ctxDone, SelectCase.timeAfter]).find?
    (fun c => decide (readyAt ctx stream timeout now c
      = some (returnsAt ctx stream timeout now)))).getD SelectCase.timeAfter

/-- The contents of the buffer `req = new(Req)` at tick `t`: what `RecvMsg`
left there once it has returned, the zero value before.  A read that returns on
tick `t` itself is counted as returned; the code may then still hand back the
zero value, and no theorem below relies on that case. -/
def bufferAt {Req : Type} [Inhabited Req] (stream : RecvMsg Req) (now t : Nat) : Req :=
  match stream.completesAfter with
  | some d => if now + d ≤ t then stream.filled else default
  | none => default

/-- Go `BoundedReceive(ctx, stream, timeout)`, entered at tick `now`: the
returned pair `(req, err)`.  The goroutine runs `stream.RecvMsg(req)` and
closes `doneCh`; the `select` returns `err` of the read on `doneCh`, a
`Canceled` status on `ctx.Done()` and a `DeadlineExceeded` status on the
timer. -/
def BoundedReceive {Req : Type} [Inhabited Req] (ctx : Context) (stream : RecvMsg Req)
    (timeout : Int) (now : Nat) (pollorder : List SelectCase) : Req × Option GoError :=
  match selected ctx stream timeout now pollorder with
  | SelectCase.doneCh => (stream.filled, stream.err)
  | SelectCase.ctxDone =>
      (bufferAt stream now (returnsAt ctx stream timeout now),
        statusError Code.Canceled "")
  | SelectCase.timeAfter =>
      (bufferAt stream now (returnsAt ctx stream timeout now),
        statusError Code.DeadlineExceeded "timeout receiving message")

/-- The four kinds of outcome of one `BoundedReceive` call. -/
inductive Outcome
  | message
  | cancelled
  | timedOut
  | transportError
deriving DecidableEq, Repr

/-- The kind of outcome of a call: which case of the `select` was taken and,
on `doneCh`, whether the read returned a nil error. -/
def outcome {Req : Type} (ctx : Context) (stream : RecvMsg Req) (timeout : Int)
    (now : Nat) (pollorder : List SelectCase) : Outcome :=
  match selected ctx stream timeout now pollorder with
  | SelectCase.doneCh =>
      if stream.err = none then Outcome.message else Outcome.transportError
  | SelectCase.ctxDone => Outcome.cancelled
  | SelectCase.timeAfter => Outcome.timedOut

/-! ## MonitorStreamHealth -/

/-- A Go channel of element type `struct{}` as the monitor uses it: how many
times `close` ran on it and the values sent on it. -/
structure Chan where
  closes : Nat
  sends : List Unit
deriving DecidableEq, Repr

/-- Go `make(chan struct{})`: open, nothing sent. -/
def Chan.make : Chan := ⟨0, []⟩

/-- Go `close(ch)`. -/
def Chan.close (ch : Chan) : Chan := { ch with closes := ch.closes + 1 }

/-- Whether the channel is closed. -/
def Chan.closed (ch : Chan) : Bool := decide (0 < ch.closes)

/-- A read started on the stream: the tick `RecvMsg` was called and the tick it
returns (`none`: never). -/
structure ReadSpan where
  startedAt : Nat
  completesAt : Option Nat
deriving DecidableEq, Repr

/-- Whether a read is in flight at tick `t`: started, not yet returned. -/
def ReadSpan.inFlight (r : ReadSpan) (t : Nat) : Bool :=
  decide (r.startedAt ≤ t) &&
    (match r.completesAt with
     | some c => decide (t < c)
     | none => true)

/-- The number of reads of a log that are in flight at tick `t`. -/
def inFlightAt (reads : List ReadSpan) (t : Nat) : Nat :=
  (reads.filter (fun r => r.inFlight t)).length

/-- What surrounds one run of the monitor: the context, the behaviour of the
`i`-th `RecvMsg` call on the stream when it is issued at tick `t`
(`streamer i t`), and the poll order of the `i`-th `select`. -/
structure World (Req : Type) where
  ctx : Context
  streamer : Nat → Nat → RecvMsg Req
  pollorder : Nat → List SelectCase

/-- The state of the goroutine started by `MonitorStreamHealth`. -/
structure MonitorState where
  now : Nat
  running : Bool
  attempts : Nat
  healthCh : Chan
  reads : List ReadSpan
  pongs : Nat
deriving DecidableEq, Repr

/-- The state when `MonitorStreamHealth` returns `healthCh` to its caller at
tick `t0`: the goroutine is about to enter the loop. -/
def MonitorState.init (t0 : Nat) : MonitorState :=
  { now := t0, running := true, attempts := 0, healthCh := Chan.make,
    reads := [], pongs := 0 }

/-- The `return` statements of the goroutine: the loop is left and the deferred
`close(healthCh)` runs. -/
def MonitorState.stop (s : MonitorState) : MonitorState :=
  { s with running := false, healthCh := s.healthCh.close }

/-- The pair `(req, err)` the next `BoundedReceive` of the loop returns in
state `s`. -/
def nextReceive {Req : Type} [Inhabited Req] (w : World Req) (s : MonitorState) :
    Req × Option GoError :=
  BoundedReceive w.ctx (w.streamer s.attempts s.now) streamKeepAliveRecvTimeout
    s.now (w.pollorder s.attempts)

/-- The state once the next `BoundedReceive` has returned: the clock is at its
return tick, one more attempt is counted and its read is logged. -/
def afterReceive {Req : Type} (w : World Req) (s : MonitorState) : MonitorState :=
  { s with
    now := returnsAt w.ctx (w.streamer s.attempts s.now) streamKeepAliveRecvTimeout s.now
    attempts := s.attempts + 1
    reads := s.reads ++
      [⟨s.now, (w.streamer s.attempts s.now).completesAfter.map (fun d => s.now + d)⟩] }

/-- One iteration of the `for` loop of the goroutine.  A goroutine that has
returned takes no further step. -/
def loopIteration {Req : Type} [Inhabited Req] (w : World Req) (validFn : Req → Bool)
    (s : MonitorState) : MonitorState :=
  if s.running then
    let r := nextReceive w s
    if r.2 ≠ none then (afterReceive w s).stop
    else if !validFn r.1 then (afterReceive w s).stop
    else { afterReceive w s with pongs := s.pongs + 1 }
  else s

/-- Go `MonitorStreamHealth(ctx, log, streamer, validFn)`, called at tick `t0`:
the state of its goroutine after `n` loop iterations. -/
def MonitorStreamHealth {Req : Type} [Inhabited Req] (w : World Req)
    (validFn : Req → Bool) (t0 : Nat) : Nat → MonitorState
  | 0 => MonitorState.init t0
  | n + 1 => loopIteration w validFn (MonitorStreamHealth w validFn t0 n)

/-- Whether a `BoundedReceive` result makes the loop return: a non-nil error,
or a message `validFn` rejects. -/
def disqualifying {Req : Type} (validFn : Req → Bool) (r : Req × Option GoError) : Bool :=
  r.2.isSome || !validFn r.1

/-- The result of attempt number `i + 1` of a run, provided the `i` attempts
before it did not stop the loop. -/
def attemptResult {Req : Type} [Inhabited Req] (w : World Req) (validFn : Req → Bool)
    (t0 i : Nat) : Req × Option GoError :=
  nextReceive w (MonitorStreamHealth w validFn t0 i)

/-- The conditions on which the monitor stops. -/
inductive StopReason
  | cancelled
  | timedOut
  | transportError
  | validationFailed
deriving DecidableEq, Repr

/-- The stopping condition attempt number `i + 1` of a run meets, `none` when
it is a valid keep-alive. -/
def stopReason {Req : Type} [Inhabited Req] (w : World Req) (validFn : Req → Bool)
    (t0 i : Nat) : Option StopReason :=
  let s := MonitorStreamHealth w validFn t0 i
  match outcome w.ctx (w.streamer s.attempts s.now) streamKeepAliveRecvTimeout
      s.now (w.pollorder s.attempts) with
  | Outcome.cancelled => some StopReason.cancelled
  | Outcome.timedOut => some StopReason.timedOut
  | Outcome.transportError => some StopReason.transportError
  | Outcome.message =>
      if validFn (attemptResult w validFn t0 i).1 then none
      else some StopReason.validationFailed

/-! ## SetEqualError (compare.go) -/

/-- The outer loop of `SetEqualError` from index `i` on, over the rest of `a`:
the inner loop searches `b` for an element `proto.Equal` to the current one,
and the first element without one is reported. -/
def missingFrom {T : Type} (protoEqual : T → T → Bool) (format : T → String)
    (b : List T) : Nat → List T → Option GoError
  | _, [] => none
  | i, x :: rest =>
      if b.any (fun y => protoEqual x y) then
        missingFrom protoEqual format b (i + 1) rest
      else
        some (GoError.other ("missing[" ++ toString i ++ "]: " ++ format x))

/-- Go `SetEqualError(a, b)`.  `protoEqual` stands for `proto.Equal` and
`format` for the `%v` rendering of a message. -/
def SetEqualError {T : Type} (protoEqual : T → T → Bool) (format : T → String)
    (a b : List T) : Option GoError :=
  if a.length ≠ b.length then
    some (GoError.other
      ("len(" ++ toString a.length ++ ") != len(" ++ toString b.length ++ ")"))
  else
    missingFrom protoEqual format b 0 a

/-! ## Example runs -/

/-- Scenario D of the specification: the stream delivers three valid
keep-alives and then a message the validity function rejects, each one tick
after it is asked for; the context is never cancelled.  Messages are booleans
and the validity function is the identity. -/
def scenarioD : World Bool :=
  { ctx := ⟨none⟩
    streamer := fun i _ => ⟨some 1, decide (i < 3), none⟩
    pollorder := fun _ => [] }

/-- A stream that delivers a valid keep-alive one tick after each read is
issued, under a context that is never cancelled. -/
def steadyKeepAlive : World Bool :=
  { ctx := ⟨none⟩
    streamer := fun _ _ => ⟨some 1, true, none⟩
    pollorder := fun _ => [] }

/-- A stream on which no read ever returns, under a context cancelled at
tick 5. -/
def cancelledRun : World Bool :=
  { ctx := ⟨some 5⟩
    streamer := fun _ _ => ⟨none, false, none⟩
    pollorder := fun _ => [] }

/-- A stream on which no read ever returns, under a context that is never
cancelled. -/
def silentRun : World Bool :=
  { ctx := ⟨none⟩
    streamer := fun _ _ => ⟨none, false, none⟩
    pollorder := fun _ => [] }

/-- A stream that delivers one valid keep-alive and then fails with `EOF`,
under a context that is never cancelled. -/
def brokenRun : World Bool :=
  { ctx := ⟨none⟩
    streamer := fun i _ =>
      ⟨some 1, decide (i < 1), if i < 1 then none else some (GoError.other "EOF")⟩
    pollorder := fun _ => [] }

/-! ## Lemmas on the select -/

theorem returnsAt_le_timer {Req : Type} (ctx : Context) (stream : RecvMsg Req)
    (timeout : Int) (now : Nat) :
    returnsAt ctx stream timeout now ≤ now + timeout.toNat := by
  unfold returnsAt earliest readyAt
  cases stream.completesAfter <;> cases ctx.doneAt <;> simp

theorem now_le_returnsAt {Req : Type} (ctx : Context) (stream : RecvMsg Req)
    (timeout : Int) (now : Nat) :
    now ≤ returnsAt ctx stream timeout now := by
  unfold returnsAt earliest readyAt
  cases stream.completesAfter <;> cases ctx.doneAt <;> simp

/-- No case is ready before the return tick. -/
theorem returnsAt_le_ready {Req : Type} (ctx : Context) (stream : RecvMsg Req)
    (timeout : Int) (now : Nat) (c : SelectCase) (t : Nat)
    (h : readyAt ctx stream timeout now c = some t) :
    returnsAt ctx stream timeout now ≤ t := by
  unfold returnsAt earliest
  cases c <;> simp only [readyAt] at h ⊢
  · cases hd : stream.completesAfter <;> rw [hd] at h <;> simp at h
    subst h
    simp
  · cases hc : ctx.doneAt <;> rw [hc] at h <;> simp at h
    subst h
    cases stream.completesAfter <;> simp <;> omega
  · simp at h
    subst h
    cases stream.completesAfter <;> cases ctx.doneAt <;> simp

/-- Some case is ready at the return tick. -/
theorem exists_ready {Req : Type} (ctx : Context) (stream : RecvMsg Req)
    (timeout : Int) (now : Nat) :
    ∃ c, readyAt ctx stream timeout now c = some (returnsAt ctx stream timeout now) := by
  unfold returnsAt earliest
  cases hd : stream.completesAfter with
  | none =>
    cases hc : ctx.doneAt with
    | none => exact ⟨SelectCase.timeAfter, by simp [readyAt, hd, hc]⟩
    | some c =>
      by_cases h : max now c ≤ now + timeout.toNat
      · exact ⟨SelectCase.ctxDone, by simp [readyAt, hd, hc]; omega⟩
      · exact ⟨SelectCase.timeAfter, by simp [readyAt, hd, hc]; omega⟩
  | some d =>
    cases hc : ctx.doneAt with
    | none =>
      by_cases h : now + d ≤ now + timeout.toNat
      · exact ⟨SelectCase.doneCh, by simp [readyAt, hd, hc]; omega⟩
      · exact ⟨SelectCase.timeAfter, by simp [readyAt, hd, hc]; omega⟩
    | some c =>
      by_cases h1 : now + d ≤ max now c
      · by_cases h2 : now + d ≤ now + timeout.toNat
        · exact ⟨SelectCase.doneCh, by simp [readyAt, hd, hc]; omega⟩
        · exact ⟨SelectCase.timeAfter, by simp [readyAt, hd, hc]; omega⟩
      · by_cases h2 : max now c ≤ now + timeout.toNat
        · exact ⟨SelectCase.ctxDone, by simp [readyAt, hd, hc]; omega⟩
        · exact ⟨SelectCase.timeAfter, by simp [readyAt, hd, hc]; omega⟩

/-- The case taken is ready at the return tick. -/
theorem selected_ready {Req : Type} (ctx : Context) (stream : RecvMsg Req)
    (timeout : Int) (now : Nat) (pollorder : List SelectCase) :
    readyAt ctx stream timeout now (selected ctx stream timeout now pollorder)
      = some (returnsAt ctx stream timeout now) := by
  unfold selected
  cases hf : (pollorder ++ [SelectCase.doneCh, SelectCase.ctxDone,
      SelectCase.timeAfter]).find? (fun c => decide (readyAt ctx stream timeout now c
        = some (returnsAt ctx stream timeout now))) with
  | some c =>
    have := List.find?_some hf
    simpa using this
  | none =>
    exfalso
    obtain ⟨c, hc⟩ := exists_ready ctx stream timeout now
    rw [List.find?_eq_none] at hf
    have hmem : c ∈ pollorder ++ [SelectCase.doneCh, SelectCase.ctxDone,
        SelectCase.timeAfter] := by
      cases c <;> simp
    have := hf c hmem
    simp [hc] at this

/-- A case that is ready strictly before every other case is the one taken. -/
theorem selected_eq_of_first {Req : Type} (ctx : Context) (stream : RecvMsg Req)
    (timeout : Int) (now : Nat) (pollorder : List SelectCase) (c0 : SelectCase) (t0 : Nat)
    (h0 : readyAt ctx stream timeout now c0 = some t0)
    (hlt : ∀ c t, c ≠ c0 → readyAt ctx stream timeout now c = some t → t0 < t) :
    selected ctx stream timeout now pollorder = c0 := by
  by_contra hne
  have hsel := selected_ready ctx stream timeout now pollorder
  have h1 := hlt _ _ hne hsel
  have h2 := returnsAt_le_ready ctx stream timeout now c0 t0 h0
  omega

/-- The tick at which the taken case became ready is the return tick. -/
theorem returnsAt_eq_of_selected {Req : Type} (ctx : Context) (stream : RecvMsg Req)
    (timeout : Int) (now : Nat) (pollorder : List SelectCase) (t : Nat)
    (h : readyAt ctx stream timeout now (selected ctx stream timeout now pollorder) = some t) :
    returnsAt ctx stream timeout now = t := by
  have hsel := selected_ready ctx stream timeout now pollorder
  rw [hsel] at h
  exact Option.some.inj h

/-- A nil error comes from the `doneCh` case only. -/
theorem doneCh_of_err_none {Req : Type} [Inhabited Req] (ctx : Context)
    (stream : RecvMsg Req) (timeout : Int) (now : Nat) (pollorder : List SelectCase)
    (h : (BoundedReceive ctx stream timeout now pollorder).2 = none) :
    selected ctx stream timeout now pollorder = SelectCase.doneCh ∧ stream.err = none ∧
      (BoundedReceive ctx stream timeout now pollorder).1 = stream.filled := by
  unfold BoundedReceive at h ⊢
  cases hs : selected ctx stream timeout now pollorder <;> rw [hs] at h <;>
    simp [statusError] at h ⊢
  exact h

/-- Cases that become ready on the same tick are not ordered by the clock: with
the context cancelled on the very tick the timer fires, the poll order decides
which of the two errors is returned. -/
theorem same_tick_left_to_pollorder :
    (BoundedReceive (⟨some 50⟩ : Context) (⟨none, 0, none⟩ : RecvMsg Nat) 50 0
        [SelectCase.ctxDone]).2 = some (GoError.status Code.Canceled "") ∧
      (BoundedReceive (⟨some 50⟩ : Context) (⟨none, 0, none⟩ : RecvMsg Nat) 50 0
        [SelectCase.timeAfter]).2
        = some (GoError.status Code.DeadlineExceeded "timeout receiving message") := by
  decide

/-! ## Lemmas on the monitor loop -/

theorem loopIteration_stopped {Req : Type} [Inhabited Req] (w : World Req)
    (validFn : Req → Bool) (s : MonitorState) (h : s.running = false) :
    loopIteration w validFn s = s := by
  simp [loopIteration, h]

theorem loopIteration_continue {Req : Type} [Inhabited Req] (w : World Req)
    (validFn : Req → Bool) (s : MonitorState) (hr : s.running = true)
    (hq : disqualifying validFn (nextReceive w s) = false) :
    loopIteration w validFn s = { afterReceive w s with pongs := s.pongs + 1 } := by
  simp [disqualifying] at hq
  simp [loopIteration, hr, hq]

theorem loopIteration_stop {Req : Type} [Inhabited Req] (w : World Req)
    (validFn : Req → Bool) (s : MonitorState) (hr : s.running = true)
    (hq : disqualifying validFn (nextReceive w s) = true) :
    loopIteration w validFn s = (afterReceive w s).stop := by
  simp only [loopIteration, hr, if_true]
  by_cases he : (nextReceive w s).2 = none
  · simp [disqualifying, he] at hq
    simp [he, hq]
  · simp [he]

/-- While no attempt has stopped the loop the goroutine is running, has made
one attempt per iteration and has left the channel as it was made. -/
theorem monitor_while_valid {Req : Type} [Inhabited Req] (w : World Req)
    (validFn : Req → Bool) (t0 : Nat) (n : Nat)
    (h : ∀ j, j < n → disqualifying validFn (attemptResult w validFn t0 j) = false) :
    (MonitorStreamHealth w validFn t0 n).running = true ∧
      (MonitorStreamHealth w validFn t0 n).attempts = n ∧
      (MonitorStreamHealth w validFn t0 n).healthCh = Chan.make := by
  induction n with
  | zero => simp [MonitorStreamHealth, MonitorState.init]
  | succ m ih =>
    obtain ⟨hr, ha, hc⟩ := ih (fun j hj => h j (Nat.lt_succ_of_lt hj))
    have hq := h m (Nat.lt_succ_self m)
    unfold attemptResult at hq
    simp only [MonitorStreamHealth]
    rw [loopIteration_continue w validFn _ hr hq]
    simp [afterReceive, ha, hc, hr]

/-- Once an attempt has stopped the loop the state no longer changes. -/
theorem monitor_after_stop {Req : Type} [Inhabited Req] (w : World Req)
    (validFn : Req → Bool) (t0 : Nat) (k : Nat)
    (h : ∀ j, j < k → disqualifying validFn (attemptResult w validFn t0 j) = false)
    (hbad : disqualifying validFn (attemptResult w validFn t0 k) = true) (n : Nat)
    (hn : k < n) :
    MonitorStreamHealth w validFn t0 n
      = (afterReceive w (MonitorStreamHealth w validFn t0 k)).stop := by
  obtain ⟨hr, _, _⟩ := monitor_while_valid w validFn t0 k h
  induction n with
  | zero => omega
  | succ m ih =>
    simp only [MonitorStreamHealth]
    by_cases hm : m = k
    · subst hm
      exact loopIteration_stop w validFn _ hr hbad
    · rw [ih (by omega)]
      exact loopIteration_stopped w validFn _ (by simp [MonitorState.stop])

/-- The channel has been closed once when the goroutine has returned and not at
all while it runs; nothing is ever sent on it. -/
theorem healthCh_invariant {Req : Type} [Inhabited Req] (w : World Req)
    (validFn : Req → Bool) (t0 : Nat) (n : Nat) :
    (MonitorStreamHealth w validFn t0 n).healthCh
      = ⟨cond (MonitorStreamHealth w validFn t0 n).running 0 1, []⟩ := by
  induction n with
  | zero => simp [MonitorStreamHealth, MonitorState.init, Chan.make]
  | succ m ih =>
    simp only [MonitorStreamHealth]
    cases hr : (MonitorStreamHealth w validFn t0 m).running with
    | false =>
      rw [loopIteration_stopped w validFn _ hr, ih, hr]
    | true =>
      rw [hr] at ih
      cases hq : disqualifying validFn (nextReceive w (MonitorStreamHealth w validFn t0 m)) with
      | false =>
        rw [loopIteration_continue w validFn _ hr hq]
        simp [afterReceive, hr, ih]
      | true =>
        rw [loopIteration_stop w validFn _ hr hq]
        simp [afterReceive, MonitorState.stop, Chan.close, ih]

/-- An attempt meets a stopping condition exactly when its result makes the
loop return. -/
theorem stopReason_eq_none_iff {Req : Type} [Inhabited Req] (w : World Req)
    (validFn : Req → Bool) (t0 i : Nat) :
    stopReason w validFn t0 i = none ↔
      disqualifying validFn (attemptResult w validFn t0 i) = false := by
  unfold stopReason attemptResult nextReceive disqualifying outcome BoundedReceive
  simp only []
  cases hs : selected w.ctx
      (w.streamer (MonitorStreamHealth w validFn t0 i).attempts
        (MonitorStreamHealth w validFn t0 i).now)
      streamKeepAliveRecvTimeout (MonitorStreamHealth w validFn t0 i).now
      (w.pollorder (MonitorStreamHealth w validFn t0 i).attempts)
  · cases he : (w.streamer (MonitorStreamHealth w validFn t0 i).attempts
        (MonitorStreamHealth w validFn t0 i).now).err <;> simp
  · simp [statusError]
  · simp [statusError]

theorem inFlightAt_append (reads : List ReadSpan) (r : ReadSpan) (t : Nat) :
    inFlightAt (reads ++ [r]) t = inFlightAt reads t + (if r.inFlight t then 1 else 0) := by
  unfold inFlightAt
  rw [List.filter_append, List.length_append]
  by_cases h : r.inFlight t = true <;> simp [List.filter, h]

/-- Every attempt logs one read, at most one logged read is in flight at any
tick, and while the goroutine runs every logged read has returned. -/
theorem reads_invariant {Req : Type} [Inhabited Req] (w : World Req)
    (validFn : Req → Bool) (t0 : Nat) (n : Nat) :
    (MonitorStreamHealth w validFn t0 n).reads.length
        = (MonitorStreamHealth w validFn t0 n).attempts ∧
      (∀ t, inFlightAt (MonitorStreamHealth w validFn t0 n).reads t ≤ 1) ∧
      ((MonitorStreamHealth w validFn t0 n).running = true →
        ∀ t, (MonitorStreamHealth w validFn t0 n).now ≤ t →
          inFlightAt (MonitorStreamHealth w validFn t0 n).reads t = 0) := by
  induction n with
  | zero => simp [MonitorStreamHealth, MonitorState.init, inFlightAt]
  | succ m ih =>
    obtain ⟨hlen, hle, hzero⟩ := ih
    simp only [MonitorStreamHealth]
    cases hr : (MonitorStreamHealth w validFn t0 m).running with
    | false =>
      rw [loopIteration_stopped w validFn _ hr]
      exact ⟨hlen, hle, fun h => by rw [hr] at h; cases h⟩
    | true =>
      have hz := hzero hr
      have hone : ∀ t, inFlightAt ((MonitorStreamHealth w validFn t0 m).reads ++
          [⟨(MonitorStreamHealth w validFn t0 m).now,
            ((w.streamer (MonitorStreamHealth w validFn t0 m).attempts
              (MonitorStreamHealth w validFn t0 m).now).completesAfter).map
                (fun d => (MonitorStreamHealth w validFn t0 m).now + d)⟩]) t ≤ 1 := by
        intro t
        rw [inFlightAt_append]
        by_cases ht : (MonitorStreamHealth w validFn t0 m).now ≤ t
        · rw [hz t ht]
          split <;> omega
        · have := hle t
          simp [ReadSpan.inFlight, ht]
          exact this
      cases hq : disqualifying validFn (nextReceive w (MonitorStreamHealth w validFn t0 m)) with
      | false =>
        rw [loopIteration_continue w validFn _ hr hq]
        refine ⟨by simp [afterReceive, hlen], by simpa [afterReceive] using hone, ?_⟩
        intro _ t ht
        simp only [afterReceive] at ht ⊢
        simp [disqualifying] at hq
        obtain ⟨hsel, _, _⟩ := doneCh_of_err_none _ _ _ _ _ hq.1
        have hready := selected_ready w.ctx
          (w.streamer (MonitorStreamHealth w validFn t0 m).attempts
            (MonitorStreamHealth w validFn t0 m).now)
          streamKeepAliveRecvTimeout (MonitorStreamHealth w validFn t0 m).now
          (w.pollorder (MonitorStreamHealth w validFn t0 m).attempts)
        rw [hsel] at hready
        simp only [readyAt] at hready
        have hnow := now_le_returnsAt w.ctx
          (w.streamer (MonitorStreamHealth w validFn t0 m).attempts
            (MonitorStreamHealth w validFn t0 m).now)
          streamKeepAliveRecvTimeout (MonitorStreamHealth w validFn t0 m).now
        rw [inFlightAt_append, hz t (by omega), hready]
        simp [ReadSpan.inFlight]
        omega
      | true =>
        rw [loopIteration_stop w validFn _ hr hq]
        refine ⟨by simp [afterReceive, MonitorState.stop, hlen],
          by simpa [afterReceive, MonitorState.stop] using hone, ?_⟩
        intro h
        simp [MonitorState.stop] at h

/-! ## BoundedReceive: the four outcomes -/

/-- C1: when the read returns a nil error `d` ticks after the call was entered,
strictly before the context is cancelled and strictly before the timeout
elapses, `BoundedReceive` returns the message `RecvMsg` left in the buffer
together with a nil error, whatever the poll order. -/
theorem BoundedReceive_returns_message {Req : Type} [Inhabited Req] (ctx : Context)
    (stream : RecvMsg Req) (timeout : Int) (now : Nat) (pollorder : List SelectCase)
    (d : Nat) (hread : stream.completesAfter = some d) (hnil : stream.err = none)
    (hctx : ∀ c, ctx.doneAt = some c → now + d < c)
    (htimeout : (d : Int) < timeout) :
    BoundedReceive ctx stream timeout now pollorder = (stream.filled, none) := by
  have hsel : selected ctx stream timeout now pollorder = SelectCase.doneCh := by
    apply selected_eq_of_first ctx stream timeout now pollorder SelectCase.doneCh (now + d)
    · simp [readyAt, hread]
    · intro c t hc hr
      cases c
      · exact absurd rfl hc
      · cases hcd : ctx.doneAt with
        | none => simp [readyAt, hcd] at hr
        | some c =>
          have := hctx c hcd
          simp [readyAt, hcd] at hr
          omega
      · simp [readyAt] at hr
        omega
  simp [BoundedReceive, hsel, hnil]

theorem BoundedReceive_returns_message_witness :
    BoundedReceive (⟨some 70⟩ : Context) (⟨some 10, 7, none⟩ : RecvMsg Nat) 50 0 []
      = (7, none) :=
  BoundedReceive_returns_message ⟨some 70⟩ ⟨some 10, 7, none⟩ 50 0 [] 10 rfl rfl
    (by intro c hc; cases hc; decide) (by decide)

/-- C2: when the read fails with error `e`, `d` ticks after the call was
entered, strictly before the context is cancelled and strictly before the
timeout elapses, the error `BoundedReceive` returns is `e` itself. -/
theorem BoundedReceive_passes_error_through {Req : Type} [Inhabited Req] (ctx : Context)
    (stream : RecvMsg Req) (timeout : Int) (now : Nat) (pollorder : List SelectCase)
    (d : Nat) (e : GoError)
    (hread : stream.completesAfter = some d) (herr : stream.err = some e)
    (hctx : ∀ c, ctx.doneAt = some c → now + d < c)
    (htimeout : (d : Int) < timeout) :
    (BoundedReceive ctx stream timeout now pollorder).2 = some e := by
  have hsel : selected ctx stream timeout now pollorder = SelectCase.doneCh := by
    apply selected_eq_of_first ctx stream timeout now pollorder SelectCase.doneCh (now + d)
    · simp [readyAt, hread]
    · intro c t hc hr
      cases c
      · exact absurd rfl hc
      · cases hcd : ctx.doneAt with
        | none => simp [readyAt, hcd] at hr
        | some c =>
          have := hctx c hcd
          simp [readyAt, hcd] at hr
          omega
      · simp [readyAt] at hr
        omega
  simp [BoundedReceive, hsel, herr]

theorem BoundedReceive_passes_error_through_witness :
    (BoundedReceive (⟨none⟩ : Context)
      (⟨some 10, 0, some (GoError.other "EOF")⟩ : RecvMsg Nat) 50 0 []).2
      = some (GoError.other "EOF") :=
  BoundedReceive_passes_error_through ⟨none⟩ ⟨some 10, 0, some (GoError.other "EOF")⟩
    50 0 [] 10 (GoError.other "EOF") rfl rfl (by intro c hc; cases hc) (by decide)

/-- C3: when the context is cancelled `t` ticks after the call was entered,
with `t` less than the timeout `d`, and the read has not returned by then,
`BoundedReceive` returns a non-nil error whose status code is `Canceled`, and
so not `DeadlineExceeded`. -/
theorem BoundedReceive_cancelled {Req : Type} [Inhabited Req] (ctx : Context)
    (stream : RecvMsg Req) (d : Int) (now : Nat) (pollorder : List SelectCase)
    (t : Nat) (htd : (t : Int) < d) (hfire : ctx.doneAt = some (now + t))
    (hread : ∀ r, stream.completesAfter = some r → t < r) :
    (BoundedReceive ctx stream d now pollorder).2 ≠ none ∧
      statusCode (BoundedReceive ctx stream d now pollorder).2 = Code.Canceled ∧
      statusCode (BoundedReceive ctx stream d now pollorder).2 ≠ Code.DeadlineExceeded := by
  have hsel : selected ctx stream d now pollorder = SelectCase.ctxDone := by
    apply selected_eq_of_first ctx stream d now pollorder SelectCase.ctxDone (now + t)
    · simp [readyAt, hfire]
    · intro c u hc hr
      cases c
      · cases hcd : stream.completesAfter with
        | none => simp [readyAt, hcd] at hr
        | some r =>
          have := hread r hcd
          simp [readyAt, hcd] at hr
          omega
      · exact absurd rfl hc
      · simp [readyAt] at hr
        omega
  simp [BoundedReceive, hsel, statusError, statusCode]

theorem BoundedReceive_cancelled_witness :
    (BoundedReceive (⟨some 5⟩ : Context) (⟨none, 0, none⟩ : RecvMsg Nat) 50 0 []).2 ≠ none ∧
      statusCode (BoundedReceive (⟨some 5⟩ : Context)
        (⟨none, 0, none⟩ : RecvMsg Nat) 50 0 []).2 = Code.Canceled ∧
      statusCode (BoundedReceive (⟨some 5⟩ : Context)
        (⟨none, 0, none⟩ : RecvMsg Nat) 50 0 []).2 ≠ Code.DeadlineExceeded :=
  BoundedReceive_cancelled ⟨some 5⟩ ⟨none, 0, none⟩ 50 0 [] 5 (by decide) rfl
    (by intro r hr; cases hr)

/-- C4 fails as stated: with a read that never returns, a timeout of 50 ticks
and a context cancelled on tick 50, the cancellation does not fire before the
timeout elapses, yet for the poll order that looks at `ctx.Done()` first the
call returns the `Canceled` status, not `DeadlineExceeded`. -/
theorem BoundedReceive_cancelled_as_timeout_elapses :
    (⟨none, 0, none⟩ : RecvMsg Nat).completesAfter = none ∧
      (⟨some 50⟩ : Context).doneAt = some 50 ∧ ¬ (50 < 0 + (50 : Int).toNat) ∧
      (BoundedReceive (⟨some 50⟩ : Context) (⟨none, 0, none⟩ : RecvMsg Nat) 50 0 []).2
        = some (GoError.status Code.Canceled "") ∧
      statusCode (BoundedReceive (⟨some 50⟩ : Context)
        (⟨none, 0, none⟩ : RecvMsg Nat) 50 0 []).2 ≠ Code.DeadlineExceeded := by
  decide

/-- C4, amended: when the read has not returned by the tick at which the
timeout `d` elapses and the context is not cancelled before that tick, the call
returns a non-nil error exactly when `d` has elapsed, so never earlier.  Its
status code is `DeadlineExceeded`, except that when the context is cancelled on
that very tick the code is `DeadlineExceeded` or `Canceled`, as the `select`
picks; when the context is not cancelled on that tick (later or never) the
timer case is the one taken and the code is `DeadlineExceeded`. -/
theorem BoundedReceive_timed_out {Req : Type} [Inhabited Req] (ctx : Context)
    (stream : RecvMsg Req) (d : Int) (now : Nat) (pollorder : List SelectCase)
    (hread : ∀ r, stream.completesAfter = some r → d.toNat < r)
    (hctx : ∀ c, ctx.doneAt = some c → now + d.toNat ≤ c) :
    (BoundedReceive ctx stream d now pollorder).2 ≠ none ∧
      returnsAt ctx stream d now = now + d.toNat ∧
      (now : Int) + d ≤ (returnsAt ctx stream d now : Int) ∧
      (statusCode (BoundedReceive ctx stream d now pollorder).2 = Code.DeadlineExceeded ∨
        (ctx.doneAt = some (now + d.toNat) ∧
          statusCode (BoundedReceive ctx stream d now pollorder).2 = Code.Canceled)) ∧
      (ctx.doneAt ≠ some (now + d.toNat) →
        selected ctx stream d now pollorder = SelectCase.timeAfter ∧
        statusCode (BoundedReceive ctx stream d now pollorder).2
          = Code.DeadlineExceeded) := by
  have hle := returnsAt_le_timer ctx stream d now
  have hsel := selected_ready ctx stream d now pollorder
  have hnot : selected ctx stream d now pollorder ≠ SelectCase.doneCh := by
    intro h
    rw [h] at hsel
    cases hcd : stream.completesAfter with
    | none => simp [readyAt, hcd] at hsel
    | some r =>
      have := hread r hcd
      simp [readyAt, hcd] at hsel
      omega
  have hcancel : selected ctx stream d now pollorder = SelectCase.ctxDone →
      ctx.doneAt = some (now + d.toNat) ∧ returnsAt ctx stream d now = now + d.toNat := by
    intro h
    rw [h] at hsel
    cases hcd : ctx.doneAt with
    | none => simp [readyAt, hcd] at hsel
    | some c =>
      have := hctx c hcd
      simp [readyAt, hcd] at hsel
      have hc : c = now + d.toNat := by omega
      exact ⟨by rw [hc], by omega⟩
  have hret : returnsAt ctx stream d now = now + d.toNat := by
    cases hs : selected ctx stream d now pollorder with
    | doneCh => exact absurd hs hnot
    | ctxDone => exact (hcancel hs).2
    | timeAfter =>
      rw [hs] at hsel
      simp [readyAt] at hsel
      omega
  refine ⟨?_, hret, ?_, ?_, ?_⟩
  · unfold BoundedReceive
    cases hs : selected ctx stream d now pollorder with
    | doneCh => exact absurd hs hnot
    | ctxDone => simp [statusError]
    | timeAfter => simp [statusError]
  · rw [hret]
    push_cast
    have := Int.self_le_toNat d
    omega
  · unfold BoundedReceive
    cases hs : selected ctx stream d now pollorder with
    | doneCh => exact absurd hs hnot
    | ctxDone => exact Or.inr ⟨(hcancel hs).1, by simp [statusError, statusCode]⟩
    | timeAfter => exact Or.inl (by simp [statusError, statusCode])
  · intro hne
    have hs : selected ctx stream d now pollorder = SelectCase.timeAfter := by
      cases hs : selected ctx stream d now pollorder with
      | doneCh => exact absurd hs hnot
      | ctxDone => exact absurd (hcancel hs).1 hne
      | timeAfter => rfl
    exact ⟨hs, by simp [BoundedReceive, hs, statusError, statusCode]⟩

theorem BoundedReceive_timed_out_witness :
    (BoundedReceive (⟨none⟩ : Context) (⟨none, 0, none⟩ : RecvMsg Nat) 50 0 []).2 ≠ none ∧
      returnsAt (⟨none⟩ : Context) (⟨none, 0, none⟩ : RecvMsg Nat) 50 0 = 0 + (50 : Int).toNat ∧
      statusCode (BoundedReceive (⟨none⟩ : Context)
        (⟨none, 0, none⟩ : RecvMsg Nat) 50 0 []).2 = Code.DeadlineExceeded ∧
      (statusCode (BoundedReceive (⟨some 50⟩ : Context)
          (⟨none, 0, none⟩ : RecvMsg Nat) 50 0 [SelectCase.timeAfter]).2
            = Code.DeadlineExceeded ∨
        ((⟨some 50⟩ : Context).doneAt = some (0 + (50 : Int).toNat) ∧
          statusCode (BoundedReceive (⟨some 50⟩ : Context)
            (⟨none, 0, none⟩ : RecvMsg Nat) 50 0 [SelectCase.timeAfter]).2
              = Code.Canceled)) :=
  ⟨(BoundedReceive_timed_out ⟨none⟩ ⟨none, 0, none⟩ 50 0 []
      (by intro r hr; cases hr) (by intro c hc; cases hc)).1,
    (BoundedReceive_timed_out ⟨none⟩ ⟨none, 0, none⟩ 50 0 []
      (by intro r hr; cases hr) (by intro c hc; cases hc)).2.1,
    ((BoundedReceive_timed_out ⟨none⟩ ⟨none, 0, none⟩ 50 0 []
      (by intro r hr; cases hr) (by intro c hc; cases hc)).2.2.2.2 (by decide)).2,
    (BoundedReceive_timed_out ⟨some 50⟩ ⟨none, 0, none⟩ 50 0 [SelectCase.timeAfter]
      (by intro r hr; cases hr) (by intro c hc; cases hc; decide)).2.2.2.1⟩

/-- C5 fails as stated: a call whose context is cancelled at tick 1 while the
read never returns, and a call whose read returns the error
`status.Error(codes.Canceled, "")` at tick 1 under a context that is never
cancelled, return the same pair `(req, err)`, yet the first is a cancelled
outcome and the second a transport error. -/
theorem BoundedReceive_same_value_two_kinds :
    BoundedReceive (⟨some 1⟩ : Context) (⟨none, 0, none⟩ : RecvMsg Nat) 10 0 []
        = (0, some (GoError.status Code.Canceled "")) ∧
      outcome (⟨some 1⟩ : Context) (⟨none, 0, none⟩ : RecvMsg Nat) 10 0 []
        = Outcome.cancelled ∧
      BoundedReceive (⟨none⟩ : Context)
          (⟨some 1, 0, statusError Code.Canceled ""⟩ : RecvMsg Nat) 10 0 []
        = (0, some (GoError.status Code.Canceled "")) ∧
      outcome (⟨none⟩ : Context)
          (⟨some 1, 0, statusError Code.Canceled ""⟩ : RecvMsg Nat) 10 0 []
        = Outcome.transportError := by
  decide

/-- C5, amended: every call has exactly the outcome fixed by the case of the
`select` that was taken.  The returned error is nil exactly for a message; a
cancelled call returns the status `Canceled` and a timed-out call the status
`DeadlineExceeded`; a transport error is the non-nil error of the read,
unchanged.  From the returned value alone a result with code `Canceled` is
cancelled or a transport error, one with code `DeadlineExceeded` is timed out or
a transport error, and a non-nil error with any other code is a transport
error. -/
theorem BoundedReceive_outcome_classified {Req : Type} [Inhabited Req] (ctx : Context)
    (stream : RecvMsg Req) (timeout : Int) (now : Nat) (pollorder : List SelectCase) :
    ((BoundedReceive ctx stream timeout now pollorder).2 = none ↔
        outcome ctx stream timeout now pollorder = Outcome.message) ∧
      (outcome ctx stream timeout now pollorder = Outcome.message →
        BoundedReceive ctx stream timeout now pollorder = (stream.filled, none)) ∧
      (outcome ctx stream timeout now pollorder = Outcome.cancelled →
        (BoundedReceive ctx stream timeout now pollorder).2
          = some (GoError.status Code.Canceled "")) ∧
      (outcome ctx stream timeout now pollorder = Outcome.timedOut →
        (BoundedReceive ctx stream timeout now pollorder).2
          = some (GoError.status Code.DeadlineExceeded "timeout receiving message")) ∧
      (outcome ctx stream timeout now pollorder = Outcome.transportError →
        (BoundedReceive ctx stream timeout now pollorder).2 = stream.err ∧
        stream.err ≠ none) ∧
      (statusCode (BoundedReceive ctx stream timeout now pollorder).2 = Code.Canceled →
        outcome ctx stream timeout now pollorder = Outcome.cancelled ∨
        outcome ctx stream timeout now pollorder = Outcome.transportError) ∧
      (statusCode (BoundedReceive ctx stream timeout now pollorder).2
          = Code.DeadlineExceeded →
        outcome ctx stream timeout now pollorder = Outcome.timedOut ∨
        outcome ctx stream timeout now pollorder = Outcome.transportError) ∧
      ((BoundedReceive ctx stream timeout now pollorder).2 ≠ none →
        statusCode (BoundedReceive ctx stream timeout now pollorder).2 ≠ Code.Canceled →
        statusCode (BoundedReceive ctx stream timeout now pollorder).2
          ≠ Code.DeadlineExceeded →
        outcome ctx stream timeout now pollorder = Outcome.transportError) := by
  unfold BoundedReceive outcome
  cases hs : selected ctx stream timeout now pollorder
  · cases he : stream.err <;> simp [statusCode]
  · simp [statusError, statusCode]
  · simp [statusError, statusCode]

/-! ## MonitorStreamHealth -/

/-- C6: when the first `k` attempts are valid keep-alives and attempt number
`k + 1` is disqualifying (a non-nil error of `BoundedReceive`, or a message
`validFn` rejects), then up to `k` iterations the goroutine is running with one
attempt per iteration and the health channel open, and from iteration `k + 1`
on it has returned, has made exactly `k + 1` attempts and started as many
reads, and the health channel is closed. -/
theorem MonitorStreamHealth_stops_at_first_disqualifying {Req : Type} [Inhabited Req]
    (w : World Req) (validFn : Req → Bool) (t0 : Nat) (k : Nat)
    (hvalid : ∀ j, j < k → disqualifying validFn (attemptResult w validFn t0 j) = false)
    (hbad : disqualifying validFn (attemptResult w validFn t0 k) = true) :
    (∀ n, n ≤ k →
        (MonitorStreamHealth w validFn t0 n).attempts = n ∧
        (MonitorStreamHealth w validFn t0 n).running = true ∧
        (MonitorStreamHealth w validFn t0 n).healthCh.closed = false) ∧
      (∀ n, k < n →
        (MonitorStreamHealth w validFn t0 n).attempts = k + 1 ∧
        (MonitorStreamHealth w validFn t0 n).reads.length = k + 1 ∧
        (MonitorStreamHealth w validFn t0 n).running = false ∧
        (MonitorStreamHealth w validFn t0 n).healthCh.closed = true) := by
  constructor
  · intro n hn
    obtain ⟨hr, ha, hc⟩ :=
      monitor_while_valid w validFn t0 n (fun j hj => hvalid j (by omega))
    exact ⟨ha, hr, by rw [hc]; rfl⟩
  · intro n hn
    obtain ⟨_, ha, hc⟩ := monitor_while_valid w validFn t0 k hvalid
    have hlen := (reads_invariant w validFn t0 n).1
    rw [monitor_after_stop w validFn t0 k hvalid hbad n hn] at hlen ⊢
    have hatt : ((afterReceive w (MonitorStreamHealth w validFn t0 k)).stop).attempts
        = k + 1 := by
      simp [afterReceive, MonitorState.stop, ha]
    refine ⟨hatt, by rw [hlen, hatt], by simp [MonitorState.stop], ?_⟩
    simp [afterReceive, MonitorState.stop, Chan.close, Chan.closed]

theorem MonitorStreamHealth_stops_at_first_disqualifying_witness :
    (∀ n, n ≤ 3 →
        (MonitorStreamHealth scenarioD id 0 n).attempts = n ∧
        (MonitorStreamHealth scenarioD id 0 n).running = true ∧
        (MonitorStreamHealth scenarioD id 0 n).healthCh.closed = false) ∧
      (∀ n, 3 < n →
        (MonitorStreamHealth scenarioD id 0 n).attempts = 3 + 1 ∧
        (MonitorStreamHealth scenarioD id 0 n).reads.length = 3 + 1 ∧
        (MonitorStreamHealth scenarioD id 0 n).running = false ∧
        (MonitorStreamHealth scenarioD id 0 n).healthCh.closed = true) :=
  MonitorStreamHealth_stops_at_first_disqualifying scenarioD id 0 3
    (by decide) (by decide)

/-- C7: when each of the first `n` attempts returns a nil error and a message
`validFn` accepts, then after those `n` attempts the health channel is open,
the goroutine is still running, and its next iteration makes attempt number
`n + 1`. -/
theorem MonitorStreamHealth_open_while_valid {Req : Type} [Inhabited Req]
    (w : World Req) (validFn : Req → Bool) (t0 : Nat) (n : Nat)
    (hvalid : ∀ j, j < n →
      (attemptResult w validFn t0 j).2 = none ∧
      validFn (attemptResult w validFn t0 j).1 = true) :
    (MonitorStreamHealth w validFn t0 n).healthCh.closed = false ∧
      (MonitorStreamHealth w validFn t0 n).running = true ∧
      (MonitorStreamHealth w validFn t0 n).attempts = n ∧
      (MonitorStreamHealth w validFn t0 (n + 1)).attempts = n + 1 := by
  have hq : ∀ j, j < n → disqualifying validFn (attemptResult w validFn t0 j) = false := by
    intro j hj
    obtain ⟨h1, h2⟩ := hvalid j hj
    simp [disqualifying, h1, h2]
  obtain ⟨hr, ha, hc⟩ := monitor_while_valid w validFn t0 n hq
  refine ⟨by rw [hc]; rfl, hr, ha, ?_⟩
  simp only [MonitorStreamHealth]
  cases hd : disqualifying validFn (nextReceive w (MonitorStreamHealth w validFn t0 n)) with
  | false =>
    rw [loopIteration_continue w validFn _ hr hd]
    simp [afterReceive, ha]
  | true =>
    rw [loopIteration_stop w validFn _ hr hd]
    simp [afterReceive, MonitorState.stop, ha]

theorem MonitorStreamHealth_open_while_valid_witness :
    (MonitorStreamHealth steadyKeepAlive id 0 5).healthCh.closed = false ∧
      (MonitorStreamHealth steadyKeepAlive id 0 5).running = true ∧
      (MonitorStreamHealth steadyKeepAlive id 0 5).attempts = 5 ∧
      (MonitorStreamHealth steadyKeepAlive id 0 (5 + 1)).attempts = 5 + 1 :=
  MonitorStreamHealth_open_while_valid steadyKeepAlive id 0 5 (by decide)

/-- C8: in every run the health channel is closed at most once, never reopens
and never carries a value; and in a run whose first `k` attempts are valid
keep-alives and whose attempt number `k + 1` meets a stopping condition `r`,
whichever of the four it is, the channel is from then on closed exactly once
and empty, the same state for every `r`. -/
theorem healthCh_closed_exactly_once {Req : Type} [Inhabited Req]
    (w : World Req) (validFn : Req → Bool) (t0 : Nat) :
    (∀ n, (MonitorStreamHealth w validFn t0 n).healthCh.closes ≤ 1 ∧
        (MonitorStreamHealth w validFn t0 n).healthCh.sends = [] ∧
        (MonitorStreamHealth w validFn t0 n).healthCh.closes
          ≤ (MonitorStreamHealth w validFn t0 (n + 1)).healthCh.closes) ∧
      (∀ k r, (∀ j, j < k → stopReason w validFn t0 j = none) →
        stopReason w validFn t0 k = some r →
        ∀ n, k < n → (MonitorStreamHealth w validFn t0 n).healthCh = ⟨1, []⟩) := by
  constructor
  · intro n
    have h0 := healthCh_invariant w validFn t0 n
    have h1 := healthCh_invariant w validFn t0 (n + 1)
    refine ⟨?_, ?_, ?_⟩
    · rw [h0]
      cases (MonitorStreamHealth w validFn t0 n).running <;> simp
    · rw [h0]
    · cases hr : (MonitorStreamHealth w validFn t0 n).running with
      | true => rw [h0, hr]; simp
      | false =>
        simp only [MonitorStreamHealth]
        rw [loopIteration_stopped w validFn _ hr]
  · intro k r hvalid hstop n hn
    have hq : ∀ j, j < k →
        disqualifying validFn (attemptResult w validFn t0 j) = false :=
      fun j hj => (stopReason_eq_none_iff w validFn t0 j).1 (hvalid j hj)
    have hbad : disqualifying validFn (attemptResult w validFn t0 k) = true := by
      cases hd : disqualifying validFn (attemptResult w validFn t0 k) with
      | true => rfl
      | false =>
        rw [(stopReason_eq_none_iff w validFn t0 k).2 hd] at hstop
        cases hstop
    obtain ⟨_, _, hc⟩ := monitor_while_valid w validFn t0 k hq
    rw [monitor_after_stop w validFn t0 k hq hbad n hn]
    simp [afterReceive, MonitorState.stop, Chan.close, hc, Chan.make]

theorem healthCh_closed_exactly_once_witness :
    (MonitorStreamHealth scenarioD id 0 7).healthCh = ⟨1, []⟩ ∧
      (MonitorStreamHealth cancelledRun id 0 1).healthCh = ⟨1, []⟩ ∧
      (MonitorStreamHealth silentRun id 0 1).healthCh = ⟨1, []⟩ ∧
      (MonitorStreamHealth brokenRun id 0 2).healthCh = ⟨1, []⟩ :=
  ⟨(healthCh_closed_exactly_once scenarioD id 0).2 3 StopReason.validationFailed
      (by decide) (by decide) 7 (by decide),
    (healthCh_closed_exactly_once cancelledRun id 0).2 0 StopReason.cancelled
      (by decide) (by decide) 1 (by decide),
    (healthCh_closed_exactly_once silentRun id 0).2 0 StopReason.timedOut
      (by decide) (by decide) 1 (by decide),
    (healthCh_closed_exactly_once brokenRun id 0).2 1 StopReason.transportError
      (by decide) (by decide) 2 (by decide)⟩

/-- C9: in every reachable state of the monitor, every attempt made has started
exactly one read, at most one of the reads started is in flight at any tick
`t`, and while the goroutine is running (so whenever it starts another
`BoundedReceive`) none of them is still in flight. -/
theorem MonitorStreamHealth_one_read_in_flight {Req : Type} [Inhabited Req]
    (w : World Req) (validFn : Req → Bool) (t0 : Nat) (n t : Nat) :
    (MonitorStreamHealth w validFn t0 n).reads.length
        = (MonitorStreamHealth w validFn t0 n).attempts ∧
      inFlightAt (MonitorStreamHealth w validFn t0 n).reads t ≤ 1 ∧
      ((MonitorStreamHealth w validFn t0 n).running = true →
        inFlightAt (MonitorStreamHealth w validFn t0 n).reads
          (MonitorStreamHealth w validFn t0 n).now = 0) := by
  obtain ⟨hlen, hle, hzero⟩ := reads_invariant w validFn t0 n
  exact ⟨hlen, hle t, fun hr => hzero hr _ (Nat.le_refl _)⟩

/-! ## SetEqualError -/

/-- C10 at a failing input: on `a = [1, 1]`, `b = [1, 2]` (messages compared by
equality) `SetEqualError(a, b)` is nil while `SetEqualError(b, a)` reports the
element at index 1 as missing. -/
theorem SetEqualError_depends_on_order :
    SetEqualError (fun x y : Nat => x == y) (fun x => toString x) [1, 1] [1, 2] = none ∧
      SetEqualError (fun x y : Nat => x == y) (fun x => toString x) [1, 2] [1, 1]
        = some (GoError.other "missing[1]: 2") := by
  decide

end Protoutil
